import Mathlib

/-!
Verification of the discord-archiver repository.

Shallow embedding of the archive pipeline:
* `src/html_builder.py` — `DiscordRenderer.render` (message grouping,
  embed colour processing, template evaluation);
* `src/discord_client.py` — `DiscordClient._request` (rate-limit retry loop);
* `src/app.py` — `archive_channel_task` (per-channel worker: existence
  check, fetch, render, convert, upload-with-retry, local fallback);
* `src/config.py` / `src/app.py` — `sanitize` name sanitisation.

External effects (HTTP requests, the Google Drive API, the Playwright
engine, the wall clock, the markdown library) are modelled as explicit
oracle parameters; the local filesystem is modelled as an association
list from paths to file data; Python's in-place dict mutation inside
`render` is modelled as an explicitly returned post-state.
-/

/-! ## Basic string helpers (Python `in`, `str.lower`, sanitisation) -/

/-- Character-list prefix test, building block of the substring test. -/
def startsList : List Char → List Char → Bool
  | [], _ => true
  | _ :: _, [] => false
  | a :: as, b :: bs => a == b && startsList as bs

/-- Substring test on character lists. -/
def subListC : List Char → List Char → Bool
  | n, [] => startsList n []
  | n, c :: t => startsList n (c :: t) || subListC n t

/-- Python's `needle in hay` substring operator on strings. -/
def pyIn (needle hay : String) : Bool :=
  subListC needle.toList hay.toList

/-- Model of `sanitize` (`src/app.py` line 245 and the inline copies at
lines 266-268, identical to `sanitize_filename` in `src/config.py`):
`"".join(c for c in name if c.isalnum() or c in (' ', '.', '_', '-')).strip()`.
`str.isalnum`/`str.strip` are modelled with `Char.isAlphanum` and
`String.trim`. -/
def sanitize (name : String) : String :=
  (String.mk (name.toList.filter
    (fun c => c.isAlphanum || c == ' ' || c == '.' || c == '_' || c == '-'))).trim

/-! ## Renderer data model (`src/html_builder.py`)

A fetched Discord message as consumed by `DiscordRenderer.render`.
Dict keys read by the source become structure fields; keys read through
`.get` with a default become `Option` fields (or carry the default's
semantics in the accessor that uses them). -/

/-- The `author` sub-dict of a message: `id`, `username`, optional
`avatar` hash, optional `discriminator` (a decimal string in the API;
the model carries the parsed number, `int(...)` in the source), and the
`bot` flag (`.get('bot', False)`, so absent is modelled as `false`). -/
structure Author where
  id : Nat
  username : String
  avatar : Option String
  discriminator : Option Nat
  bot : Bool
deriving DecidableEq, Repr

/-- One attachment: `url`, `filename`, `content_type`. -/
structure AttachmentR where
  url : String
  filename : String
  content_type : String
deriving DecidableEq, Repr

/-- One embed field: `name`, `value`, `inline` flag
(`field.inline` in the template; absent is falsy, modelled as `Bool`). -/
structure EmbedField where
  name : String
  value : String
  isInline : Bool
deriving DecidableEq, Repr

/-- An embed footer: `text` and optional `icon_url`. -/
structure EmbedFooter where
  text : String
  icon_url : Option String
deriving DecidableEq, Repr

/-- One embed. `color_hex` is absent in fetched data and written by
`render`'s embed processing (the in-place mutation at
`src/html_builder.py` lines 430-434). `image` carries the `url` of the
embed's image object when present. -/
structure Embed where
  title : Option String
  url : Option String
  description : Option String
  color : Option Nat
  color_hex : Option String
  fields : List EmbedField
  footer : Option EmbedFooter
  image : Option String
deriving DecidableEq, Repr

/-- One message as read by the renderer: `id`, `author`, raw
`timestamp` string, `content` (`.get('content', '')`, empty-collapsed
to `String`), `attachments` (`.get('attachments', [])`), `embeds`
(the source guards with `'embeds' in m`; an absent key behaves exactly
like `[]`, so both are modelled as the empty list). -/
structure Message where
  id : String
  author : Author
  timestamp : String
  content : String
  attachments : List AttachmentR
  embeds : List Embed
deriving DecidableEq, Repr

/-! ## Embed colour processing (`src/html_builder.py` lines 425-440) -/

/-- Lowercase hexadecimal digit character, as produced by Python's
`format(c, 'x')`. -/
def hexDigit (n : Nat) : Char :=
  if n < 10 then Char.ofNat ('0'.toNat + n) else Char.ofNat ('a'.toNat + (n - 10))

/-- Fuel-indexed minimal hexadecimal digit list of `n` (most significant
first), enough fuel given means `fuel > n`. -/
def natHexCore : Nat → Nat → List Char
  | 0, _ => []
  | fuel + 1, n =>
    if n < 16 then [hexDigit n]
    else natHexCore fuel (n / 16) ++ [hexDigit (n % 16)]

/-- Minimal lowercase hexadecimal digit list of `n`, Python's
`format(n, 'x')`. -/
def natHex (n : Nat) : List Char :=
  natHexCore (n + 1) n

/-- Python's `f"#{c:06x}"`: lowercase hexadecimal, left-padded with `'0'`
to a minimum width of 6, preceded by `#`. -/
def hexColor6 (c : Nat) : String :=
  "#" ++ String.mk (List.replicate (6 - (natHex c).length) '0' ++ natHex c)

/-- Embed processing from `render` (`src/html_builder.py` lines 428-440):
`c_val = e.get('color', 0x202225)`; if `c_val` is truthy the hex string
is `f"#{c_val:06x}"`, otherwise the fallback `"#202225"`; then
`description`, when present, is replaced by its markdown rendering
(the source mutates the embed dict in place; the model returns the new
embed). `mdDesc` is the external `markdown.markdown(·, extensions=['nl2br'])`. -/
def processEmbed (mdDesc : String → String) (e : Embed) : Embed :=
  let c_val := e.color.getD 0x202225
  let e1 : Embed :=
    { e with color_hex := some (if c_val ≠ 0 then hexColor6 c_val else "#202225") }
  match e1.description with
  | some d => { e1 with description := some (mdDesc d) }
  | none => e1

/-! ## Timestamps and avatars (`src/html_builder.py` lines 397-417) -/

/-- Shape test for the subset of ISO-8601 timestamps the model
recognises: `YYYY-MM-DD[T ]HH:MM` followed by anything
(`datetime.fromisoformat` accepts these; inputs outside this shape are
treated as parse failures and fall back to the raw string, mirroring the
source's bare `except`). -/
def isoLike : List Char → Bool
  | y1 :: y2 :: y3 :: y4 :: s1 :: o1 :: o2 :: s2 :: d1 :: d2 :: t :: h1 :: h2 :: c1 :: i1 :: i2 :: _ =>
    ([y1, y2, y3, y4, o1, o2, d1, d2, h1, h2, i1, i2].all Char.isDigit)
      && s1 == '-' && s2 == '-' && (t == 'T' || t == ' ') && c1 == ':'
  | _ => false

/-- Timestamp display string (`src/html_builder.py` lines 412-417):
parse the ISO string and reformat as `"%Y-%m-%d %H:%M"`; on parse
failure keep the raw string. -/
def tsStr (raw : String) : String :=
  if isoLike raw.toList then
    String.mk (raw.toList.take 10 ++ ' ' :: (raw.toList.drop 11).take 5)
  else raw

/-- Avatar URL construction (`src/html_builder.py` lines 397-410).
With a custom avatar hash the extension is `gif` for animated (`a_`)
hashes, else `png`; without one, the default avatar index is
`discriminator % 5` for legacy accounts and `(user_id >> 22) % 6` for
migrated accounts (`discriminator == 0`, which is also the default for
an absent key). -/
def avatarUrl (a : Author) : String :=
  match a.avatar with
  | some hash =>
    let ext := if hash.startsWith "a_" then "gif" else "png"
    "https://cdn.discordapp.com/avatars/" ++ toString a.id ++ "/" ++ hash
      ++ "." ++ ext ++ "?size=64"
  | none =>
    let discriminator := a.discriminator.getD 0
    let default_idx :=
      if discriminator = 0 then (a.id >>> 22) % 6 else discriminator % 5
    "https://cdn.discordapp.com/embed/avatars/" ++ toString default_idx ++ ".png"

/-! ## Message grouping (`src/html_builder.py` lines 386-459) -/

/-- The per-message row appended to `current_group['messages']`
(`src/html_builder.py` lines 455-459): rendered content, raw
attachments, processed embeds. `md` is the external
`markdown.markdown(·, extensions=['fenced_code', 'nl2br'])`. -/
structure MsgRow where
  content_html : String
  attachments : List AttachmentR
  embeds : List Embed
deriving DecidableEq, Repr

/-- The group dict built at `src/html_builder.py` lines 446-452.  Its
keys are exactly `user`, `is_bot`, `timestamp`, `avatar_url`,
`messages` — note there is no `bot` and no `color` key. -/
structure MsgGroup where
  user : String
  is_bot : Bool
  timestamp : String
  avatar_url : String
  messages : List MsgRow
deriving DecidableEq, Repr

/-- Row construction for one message. -/
def mkRow (md mdDesc : String → String) (m : Message) : MsgRow :=
  { content_html := md m.content
    attachments := m.attachments
    embeds := m.embeds.map (processEmbed mdDesc) }

/-- Fresh group opened for message `m` (`src/html_builder.py` lines
446-453 followed by the unconditional append at line 455). -/
def initGroup (md mdDesc : String → String) (m : Message) : MsgGroup :=
  { user := m.author.username
    is_bot := m.author.bot
    timestamp := tsStr m.timestamp
    avatar_url := avatarUrl m.author
    messages := [mkRow md mdDesc m] }

/-- The grouping loop (`src/html_builder.py` lines 391-459) with a
current open group: a message whose `author.username` equals the open
group's `user` key is appended to it, otherwise the open group is closed
and a new one opened (`if not current_group or current_group['user'] != user`). -/
def groupsAux (md mdDesc : String → String) (cur : MsgGroup) : List Message → List MsgGroup
  | [] => [cur]
  | m :: rest =>
    if cur.user == m.author.username then
      groupsAux md mdDesc { cur with messages := cur.messages ++ [mkRow md mdDesc m] } rest
    else
      cur :: groupsAux md mdDesc (initGroup md mdDesc m) rest

/-- All message groups of a chronologically ordered message list. -/
def buildGroups (md mdDesc : String → String) : List Message → List MsgGroup
  | [] => []
  | m :: rest => groupsAux md mdDesc (initGroup md mdDesc m) rest

/-- Username of the message that opened a chunk (the group's `user` key). -/
def chunkUser : List Message → String
  | [] => ""
  | m :: _ => m.author.username

/-- Message-level view of the grouping loop: the same recursion as
`groupsAux`, accumulating the original messages of the open group
(reversed) instead of the rendered rows, so that authorship of each
group's messages can be stated. -/
def chunksAux (u : String) (cur : List Message) : List Message → List (List Message)
  | [] => [cur.reverse]
  | m :: rest =>
    if u == m.author.username then chunksAux u (m :: cur) rest
    else cur.reverse :: chunksAux m.author.username [m] rest

/-- Message-level partition produced by the grouping loop. -/
def chunks : List Message → List (List Message)
  | [] => []
  | m :: rest => chunksAux m.author.username [m] rest

/-- The group a chunk of messages gives rise to: header data from the
chunk's first message, one row per message. -/
def chunkToGroup (md mdDesc : String → String) : List Message → MsgGroup
  | [] => { user := "", is_bot := false, timestamp := "", avatar_url := "", messages := [] }
  | m :: rest => { initGroup md mdDesc m with messages := (m :: rest).map (mkRow md mdDesc) }

/-! ## Template evaluation (`DiscordRenderer.TEMPLATE`)

The Jinja2 template is static text with interpolations and conditional
blocks; the model captures exactly its dynamic content (the static
markup/CSS is invariant).  Jinja2 semantics used: a missing dict key is
`Undefined`, which is falsy in `{% if %}` and renders as the empty
string in `{{ }}`; an empty string and an empty list are falsy. -/

/-- The date stamp interpolated into the template's header
(`archive_date`), produced by `datetime.datetime.now().strftime("%Y-%m-%d")`
(`src/html_builder.py` line 466).  The wall-clock date is an explicit
parameter of the model. -/
structure Date where
  year : Nat
  month : Nat
  day : Nat
deriving DecidableEq, Repr

/-- Zero-pad a decimal number to a minimum width. -/
def padNum (w : Nat) (n : Nat) : String :=
  String.mk (List.replicate (w - (toString n).length) '0') ++ toString n

/-- Python `strftime("%Y-%m-%d")`. -/
def formatDate (d : Date) : String :=
  padNum 4 d.year ++ "-" ++ padNum 2 d.month ++ "-" ++ padNum 2 d.day

/-- Rendered attachment (template lines 309-321): attachments whose
`content_type` contains `'image'` become an image link, others a file
box with url and filename. -/
inductive AttOut where
  | image (url : String)
  | file (url : String) (filename : String)
deriving DecidableEq, Repr

/-- Template evaluation of one attachment. -/
def evalAtt (a : AttachmentR) : AttOut :=
  if pyIn "image" a.content_type then .image a.url else .file a.url a.filename

/-- Rendered embed field (template lines 341-346). -/
structure FieldOut where
  name : String
  value : String
  isInline : Bool
deriving DecidableEq, Repr

/-- Rendered embed footer (template lines 354-361): optional icon and text. -/
structure FooterOut where
  icon : Option String
  text : String
deriving DecidableEq, Repr

/-- Rendered embed (template lines 328-364). -/
structure EmbedOut where
  border_color : String
  title : Option (String × String)
  description : Option String
  fields : List FieldOut
  image : Option String
  footer : Option FooterOut
deriving DecidableEq, Repr

/-- Template evaluation of one (processed) embed: `border-left-color`
from `embed.color_hex`; the title block (text plus `embed.url` link
target) only when `embed.title` is truthy; description when truthy;
the field grid when `embed.fields` is non-empty; the image block when
an image object is present; the footer block when a footer is present,
with its icon only when `footer.icon_url` is truthy. -/
def evalEmbed (e : Embed) : EmbedOut :=
  { border_color := e.color_hex.getD ""
    title := if (e.title.getD "").isEmpty then none
             else some (e.title.getD "", e.url.getD "")
    description := if (e.description.getD "").isEmpty then none
                   else some (e.description.getD "")
    fields := e.fields.map (fun f => { name := f.name, value := f.value, isInline := f.isInline })
    image := e.image
    footer := e.footer.map (fun f =>
      { icon := if (f.icon_url.getD "").isEmpty then none else some (f.icon_url.getD "")
        text := f.text }) }

/-- Rendered message row (template lines 300-367): content only when
`msg.content_html` is truthy (non-empty), then attachments, then embeds. -/
structure RowOut where
  content : Option String
  attachments : List AttOut
  embeds : List EmbedOut
deriving DecidableEq, Repr

/-- Template evaluation of one message row. -/
def evalRow (r : MsgRow) : RowOut :=
  { content := if r.content_html.isEmpty then none else some r.content_html
    attachments := r.attachments.map evalAtt
    embeds := r.embeds.map evalEmbed }

/-- Rendered group header (template lines 279-298), emitted once per group. -/
structure HeaderOut where
  username : String
  color_style : Option String
  bot_badge : Bool
  timestamp : String
  avatar : Option String
deriving DecidableEq, Repr

/-- Rendered message group: one header followed by the rows. -/
structure GroupOut where
  header : HeaderOut
  rows : List RowOut
deriving DecidableEq, Repr

/-- Template evaluation of one group (template lines 279-369).
`color_style` comes from `{% if group.color %}` — `render` never sets a
`color` key on the group dict (its keys are `user`, `is_bot`,
`timestamp`, `avatar_url`, `messages`), so the lookup is Jinja
`Undefined` and the styled span is never emitted.  `bot_badge` comes
from `{% if group.bot %}` — the dict stores the flag under `is_bot`,
not `bot`, so this lookup is likewise `Undefined` and the BOT badge is
never emitted, whatever `is_bot` holds.  `avatar` is the `<img>` source
when `group.avatar_url` is truthy (non-empty). -/
def evalGroup (g : MsgGroup) : GroupOut :=
  { header :=
      { username := g.user
        color_style := none
        bot_badge := false
        timestamp := g.timestamp
        avatar := if g.avatar_url.isEmpty then none else some g.avatar_url }
    rows := g.messages.map evalRow }

/-- The dynamic content of the rendered document: channel name and
archive date in the header, then the message groups. -/
structure Document where
  channel_name : String
  archive_date : String
  groups : List GroupOut
deriving DecidableEq, Repr

/-- Model of `DiscordRenderer.render` (`src/html_builder.py` lines 376-468):
reverse the newest-first input to chronological order, return the empty
document (`""`, modelled as `none`) for an empty input, otherwise group
the messages and render the template with the channel name, the current
date and the groups.  `md`/`mdDesc` are the two external
`markdown.markdown` configurations, `today` the wall clock's date. -/
def render (md mdDesc : String → String) (today : Date) (channel_name : String)
    (messages : List Message) : Option Document :=
  let msgs := messages.reverse
  if msgs.isEmpty then none
  else some
    { channel_name := channel_name
      archive_date := formatDate today
      groups := (buildGroups md mdDesc msgs).map evalGroup }

/-- The side effect `render` has on its input (`src/html_builder.py`
lines 428-438): the embed dicts of every message are mutated in place —
`color_hex` is written and `description` is overwritten by its markdown
rendering.  All other message fields are untouched. -/
def mutateMessage (mdDesc : String → String) (m : Message) : Message :=
  { m with embeds := m.embeds.map (processEmbed mdDesc) }

/-- Post-state of the input message list after `render` returns: the
loop body runs once per message (the reversal at line 383 copies the
list but aliases the dicts, so the original list order is preserved
while every message's embeds are mutated).  For the empty list the loop
does not run and the list is unchanged, which coincides with the map. -/
def renderPost (mdDesc : String → String) (messages : List Message) : List Message :=
  messages.map (mutateMessage mdDesc)

/-! ## Request layer (`src/discord_client.py` lines 21-39) -/

/-- An HTTP response as far as `_request` inspects it: the status code
and the `retry_after` value of the JSON body
(`response.json().get('retry_after', 1)`, read only on a 429; the model
stores the value with the default already applied). -/
structure Resp where
  status : Nat
  retryAfter : Nat
deriving DecidableEq, Repr

/-- Observable events of the request loop: one `request` per
`requests.request` call (indexed by the loop attempt), one `sleepSecs`
per `time.sleep(retry_after)`. -/
inductive REv where
  | request (attempt : Nat)
  | sleepSecs (t : Nat)
deriving DecidableEq, Repr

/-- Body of `_request`'s `for attempt in range(retries)` loop: on a 429
sleep for the server-given `retry_after` and continue with the next
attempt; any other response (success or error, the latter merely
logged) is returned immediately.  Falling off the loop returns `None`.
`resp` is the network oracle giving the response to each attempt. -/
def requestGo (resp : Nat → Resp) : List Nat → Option Resp × List REv
  | [] => (none, [])
  | a :: rest =>
    let r := resp a
    if r.status == 429 then
      let rr := requestGo resp rest
      (rr.1, .request a :: .sleepSecs r.retryAfter :: rr.2)
    else (some r, [.request a])

/-- Model of `DiscordClient._request` with `retries = 3`: attempts `0, 1, 2`. -/
def pyRequest (resp : Nat → Resp) : Option Resp × List REv :=
  requestGo resp [0, 1, 2]

/-! ## Worker (`src/app.py` lines 249-381, `archive_channel_task`) -/

/-- A channel job as handed to the worker: dict keys `id`, `name`,
`category`. -/
structure Channel where
  id : String
  name : String
  category : String
deriving DecidableEq, Repr

/-- Outcome of one fallible step of the worker: the value it produced,
or the message of the exception it raised. -/
inductive StepR (α : Type) where
  | ok (a : α)
  | exn (msg : String)
deriving DecidableEq, Repr

/-- An upload failure as classified by the two `except` clauses of the
upload loop (`src/app.py` lines 352-364): `connErr` for the
`(BrokenPipeError, ConnectionError, ConnectionResetError, OSError)`
clause, `otherErr` for the generic `Exception` clause, each carrying
`str(e)`. -/
inductive UpErr where
  | connErr (msg : String)
  | otherErr (msg : String)
deriving DecidableEq, Repr

/-- Transience classification of the upload loop: the OS-error clause
always takes the retry path; the generic clause retries only when the
lowercased message contains `'broken pipe'`, `'connection'` or
`'timeout'`, and otherwise breaks out of the loop. -/
def isTransient : UpErr → Bool
  | .connErr _ => true
  | .otherErr m =>
    let error_str := m.toLower
    pyIn "broken pipe" error_str || pyIn "connection" error_str || pyIn "timeout" error_str

/-- Observable events of the worker: the message fetch, the renderer
call, the PDF conversion, each upload attempt (1-based, as in
`range(1, max_retries + 1)`) and each exponential-backoff wait
(`time.sleep(2 ** attempt)`). -/
inductive Ev where
  | fetchEv
  | renderEv
  | convertEv
  | uploadAttempt (n : Nat)
  | uploadWait (t : Nat)
deriving DecidableEq, Repr

/-- The upload retry loop (`src/app.py` lines 341-364) over the
remaining attempt numbers (`[1, 2, 3]` at the call site, mirroring
`range(1, max_retries + 1)` with `max_retries = 3`): a successful
attempt sets `upload_success` and breaks; a transient failure sleeps
`2 ** attempt` when further attempts remain and continues; a
non-transient failure breaks.  Returns whether the upload succeeded and
the attempt/wait event trace.  (`last_upload_error` is recorded by the
source but never used afterwards, so the model drops it.) -/
def uploadGo (oc : Nat → Option UpErr) : List Nat → Bool × List Ev
  | [] => (false, [])
  | a :: rest =>
    match oc a with
    | none => (true, [.uploadAttempt a])
    | some e =>
      if isTransient e then
        let r := uploadGo oc rest
        (r.1, .uploadAttempt a :: ((if a < 3 then [Ev.uploadWait (2 ^ a)] else []) ++ r.2))
      else (false, [.uploadAttempt a])

/-- File contents on the local filesystem: the rendered HTML document or
the PDF bytes produced by the conversion engine. -/
inductive FileData where
  | htmlDoc (d : Option Document)
  | pdfBytes (b : String)
deriving DecidableEq, Repr

/-- Local filesystem model: newest-first association list from paths to
file data. -/
def FS := List (String × FileData)

/-- Write (create or overwrite) a file. -/
def FS.write (fs : FS) (p : String) (v : FileData) : FS :=
  (p, v) :: List.filter (fun kv => !(kv.1 == p)) fs

/-- Model of `shutil.rmtree`: drop every file under the directory. -/
def FS.removeTree (fs : FS) (dir : String) : FS :=
  List.filter (fun kv => !(String.isPrefixOf dir kv.1)) fs

/-- Read a file's contents. -/
def FS.read (fs : FS) (p : String) : Option FileData :=
  (List.find? (fun kv => kv.1 == p) fs).map (fun kv => kv.2)

/-- Model of `os.path.join` for the relative two-component joins the worker
performs. -/
def pathJoin (a b : String) : String :=
  a ++ "/" ++ b

/-- The worker's interaction with the outside world, one oracle per
fallible step, in program order: Drive service construction, Playwright
launch, the three `_get_create` folder resolutions, the leaf existence
query, the scratch-directory reset (`shutil.rmtree` + `os.makedirs`),
the message fetch (all batches concatenated; a mid-fetch exception is
`exn`), the HTML file write, the PDF conversion (producing the
artifact's bytes), the per-attempt upload outcome (`none` = success),
and the fallback save's `os.makedirs`/`shutil.copy2` pair.  `mdContent`,
`mdDesc` and `today` are the renderer's external inputs. -/
structure WorkerEnv where
  buildService : StepR Unit
  launch : StepR Unit
  rootFolder : StepR String
  guildFolder : StepR String
  catFolder : StepR String
  pdfExists : StepR Bool
  prepTemp : StepR Unit
  fetch : StepR (List Message)
  writeHtml : StepR Unit
  pdfGen : StepR String
  upload : Nat → Option UpErr
  fallbackCopy : StepR Unit
  mdContent : String → String
  mdDesc : String → String
  today : Date

/-- One worker result dict: `cid`, `status`, `msg`
(`src/app.py`, the `return {"cid": ..., "status": ..., "msg": ...}`
statements of `archive_channel_task`). -/
structure WorkerResult where
  cid : String
  status : String
  msg : String
deriving DecidableEq, Repr

/-- Model of `archive_channel_task` (`src/app.py` lines 249-381).  The whole body
runs inside `try/except Exception`, whose handler returns an `Error`
result carrying `str(e)` — every `exn` of a step outside the two inner
`try` blocks lands there.  The first inner `try` (fetch + render +
HTML write) maps its exception to `"Fetch/Render Error: ..."`, the
second (Playwright page work) to `"PDF Gen Failed: ..."`.  Returns the
result dict, the event trace and the final filesystem. -/
def worker (ch : Channel) (guild : String) (tempBase : String) (env : WorkerEnv)
    (fs : FS) : WorkerResult × List Ev × FS :=
  let cid := ch.id
  match env.buildService with
  | .exn m => (⟨cid, "Error", m⟩, [], fs)
  | .ok _ =>
  match env.launch with
  | .exn m => (⟨cid, "Error", m⟩, [], fs)
  | .ok _ =>
  let g_safe := sanitize guild
  let c_safe := sanitize ch.category
  let n_safe := sanitize ch.name
  match env.rootFolder with
  | .exn m => (⟨cid, "Error", m⟩, [], fs)
  | .ok _ =>
  match env.guildFolder with
  | .exn m => (⟨cid, "Error", m⟩, [], fs)
  | .ok _ =>
  match env.catFolder with
  | .exn m => (⟨cid, "Error", m⟩, [], fs)
  | .ok _ =>
  let final_pdf_name := n_safe ++ ".pdf"
  match env.pdfExists with
  | .exn m => (⟨cid, "Error", m⟩, [], fs)
  | .ok true => (⟨cid, "Exists", "Already archived"⟩, [], fs)
  | .ok false =>
  let temp_path := pathJoin tempBase cid
  match env.prepTemp with
  | .exn m => (⟨cid, "Error", m⟩, [], fs)
  | .ok _ =>
  let fs1 := fs.removeTree temp_path
  match env.fetch with
  | .exn m => (⟨cid, "Error", "Fetch/Render Error: " ++ m⟩, [.fetchEv], fs1)
  | .ok all_messages =>
  if all_messages.isEmpty then
    (⟨cid, "Empty", "No messages found"⟩, [.fetchEv], fs1.removeTree temp_path)
  else
    let html_content := render env.mdContent env.mdDesc env.today ch.name all_messages
    let html_path := pathJoin temp_path (cid ++ ".html")
    match env.writeHtml with
    | .exn m => (⟨cid, "Error", "Fetch/Render Error: " ++ m⟩, [.fetchEv, .renderEv], fs1)
    | .ok _ =>
    let fs2 := fs1.write html_path (.htmlDoc html_content)
    match env.pdfGen with
    | .exn m => (⟨cid, "Error", "PDF Gen Failed: " ++ m⟩, [.fetchEv, .renderEv, .convertEv], fs2)
    | .ok artifact =>
    let pdf_path := pathJoin temp_path final_pdf_name
    let fs3 := fs2.write pdf_path (.pdfBytes artifact)
    let up := uploadGo env.upload [1, 2, 3]
    let evs := Ev.fetchEv :: Ev.renderEv :: Ev.convertEv :: up.2
    if up.1 then
      (⟨cid, "Success", "Done"⟩, evs, fs3.removeTree temp_path)
    else
      match env.fallbackCopy with
      | .exn m => (⟨cid, "Error", m⟩, evs, fs3)
      | .ok _ =>
        let local_backup_path := pathJoin (pathJoin "Local_Backup_PDFs" g_safe) c_safe
        let local_pdf_path := pathJoin local_backup_path final_pdf_name
        let fs4 := match fs3.read pdf_path with
                   | some v => fs3.write local_pdf_path v
                   | none => fs3
        (⟨cid, "Error", "Upload Failed, saved locally: " ++ local_pdf_path⟩, evs, fs4)

/-! ## Lemmas about the grouping loop -/

theorem chunksAux_join (rest : List Message) (u : String) (cur : List Message) :
    (chunksAux u cur rest).flatten = cur.reverse ++ rest := by
  induction rest generalizing u cur with
  | nil => simp [chunksAux]
  | cons m rest ih =>
    simp only [chunksAux]
    split
    · rw [ih]; simp
    · simp [ih]

theorem chunkUser_of_mem_head (cur : List Message) (u : String) (hne : cur ≠ [])
    (hall : ∀ x ∈ cur, x.author.username = u) : chunkUser cur.reverse = u := by
  cases h : cur.reverse with
  | nil => exact absurd (List.reverse_eq_nil_iff.mp h) hne
  | cons y t =>
    have hy : y ∈ cur := by
      have : y ∈ cur.reverse := by rw [h]; exact List.mem_cons_self y t
      simpa using this
    simpa [chunkUser] using hall y hy

theorem chunksAux_user_const (rest : List Message) (u : String) (cur : List Message)
    (hne : cur ≠ []) (hall : ∀ x ∈ cur, x.author.username = u) :
    ∀ c ∈ chunksAux u cur rest, c ≠ [] ∧ ∃ v, ∀ x ∈ c, x.author.username = v := by
  induction rest generalizing u cur with
  | nil =>
    intro c hc
    simp only [chunksAux, List.mem_singleton] at hc
    subst hc
    exact ⟨by simpa using hne, u, by intro x hx; exact hall x (by simpa using hx)⟩
  | cons m rest ih =>
    intro c hc
    simp only [chunksAux] at hc
    split at hc
    · rename_i hEq
      refine ih u (m :: cur) (by simp) ?_ c hc
      intro x hx
      rcases List.mem_cons.mp hx with h | h
      · subst h; exact (beq_iff_eq.mp hEq).symm
      · exact hall x h
    · rcases List.mem_cons.mp hc with h | h
      · subst h
        exact ⟨by simpa using hne, u, by intro x hx; exact hall x (by simpa using hx)⟩
      · exact ih m.author.username [m] (by simp) (by simp) c h

theorem chunksAux_head (rest : List Message) (u : String) (cur : List Message)
    (hne : cur ≠ []) (hall : ∀ x ∈ cur, x.author.username = u) :
    ∃ c0 cs, chunksAux u cur rest = c0 :: cs ∧ chunkUser c0 = u := by
  induction rest generalizing u cur with
  | nil =>
    exact ⟨cur.reverse, [], rfl, chunkUser_of_mem_head cur u hne hall⟩
  | cons m rest ih =>
    simp only [chunksAux]
    split
    · rename_i hEq
      refine ih u (m :: cur) (by simp) ?_
      intro x hx
      rcases List.mem_cons.mp hx with h | h
      · subst h; exact (beq_iff_eq.mp hEq).symm
      · exact hall x h
    · exact ⟨cur.reverse, _, rfl, chunkUser_of_mem_head cur u hne hall⟩

theorem chunksAux_chain (rest : List Message) (u : String) (cur : List Message)
    (hne : cur ≠ []) (hall : ∀ x ∈ cur, x.author.username = u) :
    List.Chain' (fun c1 c2 => chunkUser c1 ≠ chunkUser c2) (chunksAux u cur rest) := by
  induction rest generalizing u cur with
  | nil => simp [chunksAux]
  | cons m rest ih =>
    simp only [chunksAux]
    split
    · rename_i hEq
      refine ih u (m :: cur) (by simp) ?_
      intro x hx
      rcases List.mem_cons.mp hx with h | h
      · subst h; exact (beq_iff_eq.mp hEq).symm
      · exact hall x h
    · rename_i hNe
      obtain ⟨c0, cs, hrec, hc0⟩ :=
        chunksAux_head rest m.author.username [m] (by simp) (by simp)
      rw [hrec, List.chain'_cons]
      constructor
      · rw [chunkUser_of_mem_head cur u hne hall, hc0]
        intro h
        exact hNe (by simp [h])
      · rw [← hrec]
        exact ih m.author.username [m] (by simp) (by simp)

theorem chunkToGroup_user (md mdDesc : String → String) (c : List Message) :
    (chunkToGroup md mdDesc c).user = chunkUser c := by
  cases c <;> rfl

theorem chunkToGroup_singleton (md mdDesc : String → String) (m : Message) :
    chunkToGroup md mdDesc [m] = initGroup md mdDesc m := by
  simp [chunkToGroup, initGroup]

theorem chunkToGroup_snoc (md mdDesc : String → String) (c : List Message) (m : Message)
    (hne : c ≠ []) :
    chunkToGroup md mdDesc (c ++ [m]) =
      { chunkToGroup md mdDesc c with
        messages := (chunkToGroup md mdDesc c).messages ++ [mkRow md mdDesc m] } := by
  cases c with
  | nil => exact absurd rfl hne
  | cons y t => simp [chunkToGroup, initGroup]

theorem groupsAux_eq_chunksAux (md mdDesc : String → String) (rest : List Message)
    (c : List Message) (hne : c ≠ []) :
    groupsAux md mdDesc (chunkToGroup md mdDesc c) rest =
      (chunksAux (chunkUser c) c.reverse rest).map (chunkToGroup md mdDesc) := by
  induction rest generalizing c with
  | nil => simp [groupsAux, chunksAux]
  | cons m rest ih =>
    obtain ⟨y, t, rfl⟩ : ∃ y t, c = y :: t := by
      cases c with
      | nil => exact absurd rfl hne
      | cons y t => exact ⟨y, t, rfl⟩
    simp only [groupsAux, chunksAux, chunkToGroup_user]
    split
    · have hgrp :
          ({ user := chunkUser (y :: t)
             is_bot := (chunkToGroup md mdDesc (y :: t)).is_bot
             timestamp := (chunkToGroup md mdDesc (y :: t)).timestamp
             avatar_url := (chunkToGroup md mdDesc (y :: t)).avatar_url
             messages := (chunkToGroup md mdDesc (y :: t)).messages ++ [mkRow md mdDesc m] }
            : MsgGroup) = chunkToGroup md mdDesc ((y :: t) ++ [m]) := by
        simp [chunkToGroup, chunkUser, initGroup]
      have hrec := ih ((y :: t) ++ [m]) (by simp)
      have huser : chunkUser ((y :: t) ++ [m]) = chunkUser (y :: t) := by
        simp [chunkUser]
      have hrev : ((y :: t) ++ [m]).reverse = m :: (y :: t).reverse := by
        simp
      rw [huser, hrev] at hrec
      rw [hgrp, hrec]
    · have h1 := ih [m] (by simp)
      simp only [List.reverse_singleton] at h1
      rw [List.map_cons, ← chunkToGroup_singleton md mdDesc m, h1]
      simp [chunkUser]

theorem buildGroups_eq_chunks (md mdDesc : String → String) (ms : List Message) :
    buildGroups md mdDesc ms = (chunks ms).map (chunkToGroup md mdDesc) := by
  cases ms with
  | nil => rfl
  | cons m rest =>
    have h := groupsAux_eq_chunksAux md mdDesc rest [m] (by simp)
    simp only [List.reverse_singleton, chunkToGroup_singleton] at h
    rw [buildGroups, chunks]
    rw [h]
    rfl

/-! ## Lemmas about hexadecimal formatting -/

/-- A lowercase hexadecimal digit character. -/
def isLowerHex (c : Char) : Bool :=
  c.isDigit || ('a' ≤ c && c ≤ 'f')

/-- Numeric value of a hexadecimal digit character. -/
def hexVal (c : Char) : Nat :=
  if c.isDigit then c.toNat - '0'.toNat else c.toNat - 'a'.toNat + 10

/-- Base-16 value denoted by a digit-character list (most significant
first). -/
def hexListVal (l : List Char) : Nat :=
  l.foldl (fun a c => 16 * a + hexVal c) 0

theorem hexDigit_isLowerHex : ∀ n < 16, isLowerHex (hexDigit n) = true := by decide

theorem hexVal_hexDigit : ∀ n < 16, hexVal (hexDigit n) = n := by decide

theorem natHexCore_ne_nil (fuel n : Nat) (h : n < fuel) : natHexCore fuel n ≠ [] := by
  cases fuel with
  | zero => omega
  | succ f =>
    simp only [natHexCore]
    split <;> simp

theorem natHexCore_length (fuel : Nat) : ∀ n k, n < fuel → 0 < k → n < 16 ^ k →
    (natHexCore fuel n).length ≤ k := by
  induction fuel with
  | zero => intro n k h; omega
  | succ f ih =>
    intro n k hfuel hk hbound
    simp only [natHexCore]
    split
    · simpa using hk
    · rename_i hge
      push_neg at hge
      have hk2 : 2 ≤ k := by
        by_contra hlt
        interval_cases k
        omega
      have hdivf : n / 16 < f := by
        have := Nat.div_lt_self (by omega : 0 < n) (by omega : 1 < 16)
        omega
      have hdivb : n / 16 < 16 ^ (k - 1) := by
        rw [Nat.div_lt_iff_lt_mul (by omega : 0 < 16)]
        calc n < 16 ^ k := hbound
        _ = 16 ^ (k - 1) * 16 := by
            rw [← Nat.pow_succ]
            congr 1
            omega
      have := ih (n / 16) (k - 1) hdivf (by omega) hdivb
      simp only [List.length_append, List.length_singleton]
      omega

theorem natHexCore_lower (fuel : Nat) : ∀ n, n < fuel →
    ∀ c ∈ natHexCore fuel n, isLowerHex c = true := by
  induction fuel with
  | zero => intro n h; omega
  | succ f ih =>
    intro n hfuel c hc
    simp only [natHexCore] at hc
    split at hc
    · rename_i hlt
      simp only [List.mem_singleton] at hc
      subst hc
      exact hexDigit_isLowerHex n hlt
    · rename_i hge
      push_neg at hge
      rcases List.mem_append.mp hc with h | h
      · have hdivf : n / 16 < f := by
          have := Nat.div_lt_self (by omega : 0 < n) (by omega : 1 < 16)
          omega
        exact ih (n / 16) hdivf c h
      · simp only [List.mem_singleton] at h
        subst h
        exact hexDigit_isLowerHex (n % 16) (Nat.mod_lt n (by omega))

theorem natHexCore_val (fuel : Nat) : ∀ n, n < fuel →
    hexListVal (natHexCore fuel n) = n := by
  induction fuel with
  | zero => intro n h; omega
  | succ f ih =>
    intro n hfuel
    simp only [natHexCore]
    split
    · rename_i hlt
      simp [hexListVal, hexVal_hexDigit n hlt]
    · rename_i hge
      push_neg at hge
      have hdivf : n / 16 < f := by
        have := Nat.div_lt_self (by omega : 0 < n) (by omega : 1 < 16)
        omega
      have hv := ih (n / 16) hdivf
      simp only [hexListVal] at hv ⊢
      rw [List.foldl_append, hv]
      simp only [List.foldl_cons, List.foldl_nil]
      rw [hexVal_hexDigit (n % 16) (Nat.mod_lt n (by omega))]
      omega

theorem foldl_hex_replicate_zero (k : Nat) :
    List.foldl (fun a c => 16 * a + hexVal c) 0 (List.replicate k '0') = 0 := by
  induction k with
  | zero => rfl
  | succ j ih =>
    rw [List.replicate_succ, List.foldl_cons]
    have h0 : (16 * 0 + hexVal '0') = 0 := by decide
    rw [h0]
    exact ih

theorem hexListVal_pad (k : Nat) (l : List Char) :
    hexListVal (List.replicate k '0' ++ l) = hexListVal l := by
  simp only [hexListVal]
  rw [List.foldl_append, foldl_hex_replicate_zero]

/-! ## Lemmas about the substring test -/

theorem startsList_append (n r : List Char) : startsList n (n ++ r) = true := by
  induction n with
  | nil => rfl
  | cons a t ih => simp [startsList, ih]

theorem subListC_append_self (t s : List Char) : subListC s (t ++ s) = true := by
  induction t with
  | nil =>
    cases s with
    | nil => rfl
    | cons c cs =>
      have h := startsList_append (c :: cs) []
      simp only [List.append_nil] at h
      simp [subListC, h]
  | cons x t ih => simp [subListC, ih]

theorem pyIn_append_self (t s : String) : pyIn s (t ++ s) = true := by
  show subListC s.data (t ++ s).data = true
  rw [String.data_append]
  exact subListC_append_self t.data s.data

/-! ## Lemmas about the upload retry loop -/

/-- Upload-attempt event test. -/
def isUploadAttemptEv : Ev → Bool
  | .uploadAttempt _ => true
  | _ => false

/-- Upload-backoff-wait event test. -/
def isUploadWaitEv : Ev → Bool
  | .uploadWait _ => true
  | _ => false

theorem uploadGo_attempts_le (oc : Nat → Option UpErr) (l : List Nat) :
    ((uploadGo oc l).2.filter isUploadAttemptEv).length ≤ l.length := by
  induction l with
  | nil => simp [uploadGo]
  | cons a rest ih =>
    simp only [uploadGo]
    cases oc a with
    | none => simp [isUploadAttemptEv]
    | some e =>
      by_cases ht : isTransient e = true
      · by_cases hw : a < 3
        · simp [ht, hw, isUploadAttemptEv, List.filter_append]
          omega
        · simp [ht, hw, isUploadAttemptEv, List.filter_append]
          omega
      · simp only [Bool.not_eq_true] at ht
        simp [ht, isUploadAttemptEv]

/-! ## Lemmas about the request loop -/

/-- Request event test. -/
def isRequestEv : REv → Bool
  | .request _ => true
  | _ => false

theorem requestGo_requests_le (resp : Nat → Resp) (l : List Nat) :
    ((requestGo resp l).2.filter isRequestEv).length ≤ l.length := by
  induction l with
  | nil => simp [requestGo]
  | cons a rest ih =>
    simp only [requestGo]
    by_cases h : ((resp a).status == 429) = true
    · simp [h, isRequestEv]
      omega
    · simp only [Bool.not_eq_true] at h
      simp [h, isRequestEv]

/-! ## Lemmas about the filesystem model -/

theorem FS.read_write_self (fs : FS) (p : String) (v : FileData) :
    FS.read (FS.write fs p v) p = some v := by
  simp [FS.read, FS.write]

/-! ## Concrete fixtures used by counterexamples and witnesses -/

/-- Identity stand-in for the external markdown converter in concrete
evaluations. -/
def idMd : String → String := fun s => s

/-- Author `alice` with id 1. -/
def aliceOne : Author :=
  { id := 1, username := "alice", avatar := none, discriminator := some 1, bot := false }

/-- A different author (id 2) with the same username `alice`. -/
def aliceTwo : Author :=
  { id := 2, username := "alice", avatar := none, discriminator := some 2, bot := false }

/-- A bot author. -/
def botAuthor : Author :=
  { id := 5, username := "helper", avatar := none, discriminator := some 0, bot := true }

/-- An embed with no colour key (and nothing else). -/
def embNoColor : Embed :=
  { title := none, url := none, description := none, color := none,
    color_hex := none, fields := [], footer := none, image := none }

/-- Message by `aliceOne`. -/
def msgA : Message :=
  { id := "10", author := aliceOne, timestamp := "t1", content := "hi",
    attachments := [], embeds := [] }

/-- Message by `aliceTwo` (different author id, same username). -/
def msgB : Message :=
  { id := "11", author := aliceTwo, timestamp := "t2", content := "yo",
    attachments := [], embeds := [] }

/-- Message carrying one embed. -/
def msgEmb : Message :=
  { id := "12", author := aliceOne, timestamp := "t3", content := "",
    attachments := [], embeds := [embNoColor] }

/-- Message authored by a bot. -/
def msgBot : Message :=
  { id := "20", author := botAuthor, timestamp := "2024-01-01T10:00:00",
    content := "beep", attachments := [], embeds := [] }

/-- A network oracle that answers 429 (`retry_after = 5`) to the first
three requests and 200 afterwards. -/
def respRateLimited : Nat → Resp :=
  fun k => if k < 3 then { status := 429, retryAfter := 5 } else { status := 200, retryAfter := 0 }

/-- A network oracle that always answers 200. -/
def respOk : Nat → Resp :=
  fun _ => { status := 200, retryAfter := 0 }

/-- A concrete channel job. -/
def chanA : Channel :=
  { id := "123", name := "general", category := "Chat" }

/-- A worker environment in which every step succeeds. -/
def envBase : WorkerEnv :=
  { buildService := .ok (), launch := .ok (), rootFolder := .ok "rootF",
    guildFolder := .ok "guildF", catFolder := .ok "catF", pdfExists := .ok false,
    prepTemp := .ok (), fetch := .ok [msgA], writeHtml := .ok (),
    pdfGen := .ok "PDF", upload := fun _ => none, fallbackCopy := .ok (),
    mdContent := idMd, mdDesc := idMd, today := { year := 2024, month := 1, day := 1 } }

/-- Environment `envBase` with an upload that fails transiently on the first two
attempts and succeeds on the third. -/
def envTwoFail : WorkerEnv :=
  { envBase with upload := fun k => if k ≤ 2 then some (.connErr "connection reset") else none }

/-- Environment `envBase` with an upload that always fails transiently. -/
def envAllFail : WorkerEnv :=
  { envBase with upload := fun _ => some (.connErr "connection reset") }

/-- Environment `envBase` with the remote artifact already present. -/
def envExists : WorkerEnv :=
  { envBase with pdfExists := .ok true }

/-! ## Claim C1 -/

/-- C1, counterexample: the grouping loop keys on `author.username`, not
`author.id`.  Two consecutive messages by distinct authors (ids 1 and 2)
sharing the username `alice` are merged into a single group, so the
claim "a new group starts exactly when `author.id` differs" and "never
merging two different authors" is false on this input (newest-first
input `[msgB, msgA]`). -/
theorem c1_groups_merge_distinct_ids :
    msgA.author.id ≠ msgB.author.id ∧
    chunks [msgA, msgB] = [[msgA, msgB]] ∧
    (render idMd idMd { year := 2024, month := 1, day := 1 } "general" [msgB, msgA]).map
      (fun d => d.groups.length) = some 1 := by
  refine ⟨by decide, by decide, ?_⟩
  decide

/-- C1 (amended): for every non-empty newest-first message list, the
groups produced by `DiscordRenderer.render` are contiguous runs of the
chronologically ordered messages, each group's author **username** is
constant across all its messages, and a new group starts exactly when
`author.username` differs between consecutive messages (the boundary is
username inequality; distinct author ids with an equal username are
merged).  Stated on the message-level partition `chunks`, which the
final conjunct proves to be exactly the partition `render`'s group list
is built from. -/
theorem c1_groups_are_username_runs (md mdDesc : String → String)
    (messages : List Message) (h : messages ≠ []) :
    ((chunks messages.reverse).flatten = messages.reverse) ∧
    (∀ c ∈ chunks messages.reverse, c ≠ [] ∧ ∃ v, ∀ x ∈ c, x.author.username = v) ∧
    List.Chain' (fun c1 c2 => chunkUser c1 ≠ chunkUser c2) (chunks messages.reverse) ∧
    buildGroups md mdDesc messages.reverse =
      (chunks messages.reverse).map (chunkToGroup md mdDesc) := by
  clear h
  rcases hms : messages.reverse with _ | ⟨m, rest⟩
  · exact ⟨by simp [chunks], by simp [chunks], by simp [chunks],
      buildGroups_eq_chunks md mdDesc []⟩
  · refine ⟨?_, ?_, ?_, buildGroups_eq_chunks md mdDesc (m :: rest)⟩
    · have := chunksAux_join rest m.author.username [m]
      simpa [chunks] using this
    · intro c hc
      exact chunksAux_user_const rest m.author.username [m] (by simp) (by simp) c
        (by simpa [chunks] using hc)
    · have := chunksAux_chain rest m.author.username [m] (by simp) (by simp)
      simpa [chunks] using this

/-- Witness for `c1_groups_are_username_runs` at the concrete
newest-first input `[msgB, msgA]`. -/
theorem c1_groups_are_username_runs_witness :
    (chunks ([msgB, msgA] : List Message).reverse).flatten =
      ([msgB, msgA] : List Message).reverse :=
  (c1_groups_are_username_runs idMd idMd [msgB, msgA] (by decide)).1

/-! ## Claim C6 -/

/-- C6, counterexample: `render` interpolates the wall-clock date
(`datetime.datetime.now().strftime("%Y-%m-%d")`) into the document, so
two runs on the same input on different days produce different
documents — `render` is not fully deterministic in its input alone. -/
theorem c6_render_depends_on_clock :
    render idMd idMd { year := 2024, month := 1, day := 1 } "general" [msgA] ≠
      render idMd idMd { year := 2024, month := 1, day := 2 } "general" [msgA] := by
  decide

/-- C6 (amended): `render` is deterministic given its input *and the
current date*: two runs whose wall-clock dates format identically
produce identical documents, whatever the channel name and message list. -/
theorem c6_render_deterministic_given_date (md mdDesc : String → String)
    (d1 d2 : Date) (name : String) (messages : List Message)
    (h : formatDate d1 = formatDate d2) :
    render md mdDesc d1 name messages = render md mdDesc d2 name messages := by
  simp only [render, h]

/-- Witness for `c6_render_deterministic_given_date`. -/
theorem c6_render_deterministic_given_date_witness :
    render idMd idMd { year := 2024, month := 1, day := 1 } "general" [msgA] =
      render idMd idMd { year := 2024, month := 1, day := 1 } "general" [msgA] :=
  c6_render_deterministic_given_date idMd idMd
    { year := 2024, month := 1, day := 1 } { year := 2024, month := 1, day := 1 }
    "general" [msgA] rfl

/-! ## Claim C8 -/

/-- C8, counterexample: `render` mutates its input — after the call the
embed of `msgEmb` carries a `color_hex` key it did not have before, so
the input message list is not left unchanged. -/
theorem c8_render_mutates_input :
    renderPost idMd [msgEmb] ≠ [msgEmb] := by
  decide

/-- C8 (amended): the only side effect `render` has on its input is the
in-place embed processing: the post-state is the input list, in order
and at full length, with each embed's `color_hex` written and its
`description` replaced by its markdown rendering; every other message
field (`id`, `author`, `timestamp`, `content`, `attachments`) and every
other embed field (`title`, `url`, `color`, `fields`, `footer`,
`image`) is preserved, and a message without embeds is unchanged. -/
theorem c8_render_mutates_only_embeds (mdDesc : String → String)
    (messages : List Message) :
    (renderPost mdDesc messages).length = messages.length ∧
    renderPost mdDesc messages = messages.map (mutateMessage mdDesc) ∧
    ∀ m ∈ messages,
      (mutateMessage mdDesc m).id = m.id ∧
      (mutateMessage mdDesc m).author = m.author ∧
      (mutateMessage mdDesc m).timestamp = m.timestamp ∧
      (mutateMessage mdDesc m).content = m.content ∧
      (mutateMessage mdDesc m).attachments = m.attachments ∧
      (mutateMessage mdDesc m).embeds = m.embeds.map (processEmbed mdDesc) ∧
      (∀ e ∈ m.embeds,
        (processEmbed mdDesc e).title = e.title ∧
        (processEmbed mdDesc e).url = e.url ∧
        (processEmbed mdDesc e).color = e.color ∧
        (processEmbed mdDesc e).fields = e.fields ∧
        (processEmbed mdDesc e).footer = e.footer ∧
        (processEmbed mdDesc e).image = e.image) ∧
      (m.embeds = [] → mutateMessage mdDesc m = m) := by
  refine ⟨by simp [renderPost], rfl, ?_⟩
  intro m hm
  refine ⟨rfl, rfl, rfl, rfl, rfl, rfl, ?_, ?_⟩
  · intro e he
    cases e with
    | mk t u d c ch f fo i =>
      cases d <;> simp [processEmbed]
  · intro hemb
    cases m with
    | mk i a ts ct atts ems => simp_all [mutateMessage]

/-- Witness for `c8_render_mutates_only_embeds` at `[msgEmb]`. -/
theorem c8_render_mutates_only_embeds_witness :
    (renderPost idMd [msgEmb]).length = ([msgEmb] : List Message).length :=
  (c8_render_mutates_only_embeds idMd [msgEmb]).1

/-! ## Claim C9 -/

/-- C9 (code bug): `render` stores the author's bot flag under the
group-dict key `is_bot` (`src/html_builder.py` line 448) but the
template tests `{% if group.bot %}` (line 294); the lookup is Jinja
`Undefined`, so the BOT badge is never emitted — here a message whose
author has `bot = true` renders to a document whose only group shows no
badge, contradicting "bot badge if and only if the group's author is a
bot". -/
theorem c9_bot_badge_never_rendered :
    msgBot.author.bot = true ∧
    (render idMd idMd { year := 2024, month := 2, day := 3 } "general" [msgBot]).map
      (fun d => d.groups.map (fun g => g.header.bot_badge)) = some [false] := by
  constructor
  · decide
  · decide

/-! ## Claim C10 -/

theorem processEmbed_color_hex (mdDesc : String → String) (e : Embed) :
    (processEmbed mdDesc e).color_hex =
      some (if e.color.getD 0x202225 ≠ 0 then hexColor6 (e.color.getD 0x202225)
            else "#202225") := by
  cases e with
  | mk t u d c ch f fo i => cases d <;> simp [processEmbed]

/-- C10: the embed colour fallback.  An absent colour defaults to
`0x202225` and formats to `"#202225"`; a present-but-zero colour takes
the falsy branch and is likewise assigned `"#202225"` (never
`"#000000"`); and every non-zero 24-bit colour `c` is assigned `"#"`
followed by exactly 6 lowercase hexadecimal digits whose base-16 value
is `c`. -/
theorem c10_embed_color_fallback (mdDesc : String → String) (e : Embed) (c : Nat)
    (hc0 : c ≠ 0) (hc : c < 2 ^ 24) :
    ((processEmbed mdDesc { e with color := none }).color_hex = some "#202225") ∧
    ((processEmbed mdDesc { e with color := some 0 }).color_hex = some "#202225") ∧
    ∃ ds : List Char,
      (processEmbed mdDesc { e with color := some c }).color_hex =
        some ("#" ++ String.mk ds) ∧
      ds.length = 6 ∧ (∀ ch ∈ ds, isLowerHex ch = true) ∧ hexListVal ds = c := by
  refine ⟨?_, ?_, ?_⟩
  · rw [processEmbed_color_hex]
    norm_num
    decide
  · rw [processEmbed_color_hex]
    norm_num
  · refine ⟨List.replicate (6 - (natHex c).length) '0' ++ natHex c, ?_, ?_, ?_, ?_⟩
    · rw [processEmbed_color_hex]
      simp [hc0, hexColor6]
    · have hlen : (natHex c).length ≤ 6 := by
        apply natHexCore_length (c + 1) c 6 (Nat.lt_succ_self c) (by omega)
        calc c < 2 ^ 24 := hc
        _ = 16 ^ 6 := by norm_num
      simp only [List.length_append, List.length_replicate]
      omega
    · intro ch hch
      rcases List.mem_append.mp hch with h | h
      · rw [List.eq_of_mem_replicate h]
        decide
      · exact natHexCore_lower (c + 1) c (Nat.lt_succ_self c) ch h
    · rw [hexListVal_pad]
      exact natHexCore_val (c + 1) c (Nat.lt_succ_self c)

/-- Witness for `c10_embed_color_fallback` at colour `0x5865f2`. -/
theorem c10_embed_color_fallback_witness :
    (processEmbed idMd { embNoColor with color := none }).color_hex = some "#202225" :=
  (c10_embed_color_fallback idMd embNoColor 0x5865f2 (by decide) (by norm_num)).1

/-! ## Claim C2 -/

/-- C2, counterexample: three consecutive 429 responses exhaust
`_request`'s 3-attempt loop — rate-limit retries do count against the
retry budget.  With an oracle that answers 429 three times and 200
afterwards, the call returns `None` after exactly 3 requests instead of
retrying until the 200. -/
theorem c2_rate_limit_retries_bounded :
    (pyRequest respRateLimited).1 = none ∧
    (respRateLimited 3).status = 200 ∧
    ((pyRequest respRateLimited).2.filter isRequestEv).length = 3 := by
  refine ⟨by decide, by decide, by decide⟩

/-- C2 (amended): `_request` makes at most 3 attempts in total; a 429
response causes a wait of the server-specified `retry_after` followed
by a retry that consumes the shared 3-attempt budget; any non-429
response — success or error alike — is returned immediately from the
attempt on which it occurs, with no retry; and when all 3 attempts are
rate-limited the call returns no response (`None`, which the
message-fetch loop treats as end of fetch with no messages). -/
theorem c2_request_retry_budget :
    (∀ resp : Nat → Resp, ((pyRequest resp).2.filter isRequestEv).length ≤ 3) ∧
    (∀ (resp : Nat → Resp) (a : Nat) (rest : List Nat), (resp a).status ≠ 429 →
      requestGo resp (a :: rest) = (some (resp a), [.request a])) ∧
    (∀ (resp : Nat → Resp) (a : Nat) (rest : List Nat), (resp a).status = 429 →
      requestGo resp (a :: rest) =
        ((requestGo resp rest).1,
          .request a :: .sleepSecs (resp a).retryAfter :: (requestGo resp rest).2)) ∧
    (∀ resp : Nat → Resp, (∀ k < 3, (resp k).status = 429) →
      (pyRequest resp).1 = none) := by
  refine ⟨?_, ?_, ?_, ?_⟩
  · intro resp
    exact requestGo_requests_le resp [0, 1, 2]
  · intro resp a rest h
    have hb : ((resp a).status == 429) = false := beq_eq_false_iff_ne.mpr h
    simp [requestGo, hb]
  · intro resp a rest h
    simp [requestGo, h]
  · intro resp h
    simp [pyRequest, requestGo, h 0 (by omega), h 1 (by omega), h 2 (by omega)]

/-- Witness for `c2_request_retry_budget`: a 200 on the first attempt is
returned immediately. -/
theorem c2_request_retry_budget_witness :
    requestGo respOk (0 :: [1, 2]) = (some (respOk 0), [.request 0]) :=
  c2_request_retry_budget.2.1 respOk 0 [1, 2] (by decide)

/-! ## Claim C5 -/

/-- C5: when the sanitized artifact name is already present in the
resolved root → guild → category folder path, the worker returns the
`Exists` terminal result immediately — no message fetch, no rendering
and no PDF conversion is ever invoked (the event trace is empty). -/
theorem c5_exists_short_circuits (ch : Channel) (guild tempBase : String)
    (env : WorkerEnv) (fs : FS)
    (h1 : env.buildService = .ok ()) (h2 : env.launch = .ok ())
    (h3 : ∃ x, env.rootFolder = .ok x) (h4 : ∃ x, env.guildFolder = .ok x)
    (h5 : ∃ x, env.catFolder = .ok x) (h6 : env.pdfExists = .ok true) :
    worker ch guild tempBase env fs = (⟨ch.id, "Exists", "Already archived"⟩, [], fs) ∧
    Ev.fetchEv ∉ (worker ch guild tempBase env fs).2.1 ∧
    Ev.renderEv ∉ (worker ch guild tempBase env fs).2.1 ∧
    Ev.convertEv ∉ (worker ch guild tempBase env fs).2.1 := by
  obtain ⟨r3, h3⟩ := h3
  obtain ⟨r4, h4⟩ := h4
  obtain ⟨r5, h5⟩ := h5
  have hw : worker ch guild tempBase env fs =
      (⟨ch.id, "Exists", "Already archived"⟩, [], fs) := by
    simp only [worker, h1, h2, h3, h4, h5, h6]
  rw [hw]
  simp

/-- Witness for `c5_exists_short_circuits`. -/
theorem c5_exists_short_circuits_witness :
    worker chanA "My Guild" "Temp_Export_UI" envExists [] =
      (⟨chanA.id, "Exists", "Already archived"⟩, [], []) :=
  (c5_exists_short_circuits chanA "My Guild" "Temp_Export_UI" envExists []
    rfl rfl ⟨"rootF", rfl⟩ ⟨"guildF", rfl⟩ ⟨"catF", rfl⟩ rfl).1

/-! ## Claim C7 -/

/-- C7: whatever the channel, guild, scratch root, environment (any
combination of step successes and raised exceptions) and starting
filesystem, `archive_channel_task` returns a result dict whose status
is one of `Success`, `Exists`, `Empty`, `Error` and whose `cid` is the
channel's id — no fault escapes to the orchestrator. -/
theorem c7_worker_always_returns_result (ch : Channel) (guild tempBase : String)
    (env : WorkerEnv) (fs : FS) :
    ((worker ch guild tempBase env fs).1.status = "Success" ∨
     (worker ch guild tempBase env fs).1.status = "Exists" ∨
     (worker ch guild tempBase env fs).1.status = "Empty" ∨
     (worker ch guild tempBase env fs).1.status = "Error") ∧
    (worker ch guild tempBase env fs).1.cid = ch.id := by
  constructor
  · simp only [worker]
    repeat' split
    all_goals simp
  · simp only [worker]
    repeat' split
    all_goals simp

/-! ## Claim C3 -/

/-- C3: the upload step makes at most 3 attempts; a non-transient
failure aborts the loop at once; a transient failure before the last
attempt waits `2 ^ attempt` and retries; and for a store that fails
transiently on exactly the first two attempts and succeeds on the
third, the worker reports `Success` while the trace shows exactly
attempts 1, 2, 3 with waits of 2 and 4 between them. -/
theorem c3_upload_retry_policy :
    (∀ oc : Nat → Option UpErr,
      ((uploadGo oc [1, 2, 3]).2.filter isUploadAttemptEv).length ≤ 3) ∧
    (∀ (oc : Nat → Option UpErr) (a : Nat) (rest : List Nat) (e : UpErr),
      oc a = some e → isTransient e = false →
      uploadGo oc (a :: rest) = (false, [.uploadAttempt a])) ∧
    (∀ (oc : Nat → Option UpErr) (a : Nat) (rest : List Nat) (e : UpErr),
      oc a = some e → isTransient e = true → a < 3 →
      uploadGo oc (a :: rest) =
        ((uploadGo oc rest).1,
          .uploadAttempt a :: .uploadWait (2 ^ a) :: (uploadGo oc rest).2)) ∧
    (∀ (ch : Channel) (guild tempBase : String) (env : WorkerEnv) (fs : FS)
       (e1 e2 : UpErr),
      env.buildService = .ok () → env.launch = .ok () →
      (∃ x, env.rootFolder = .ok x) → (∃ x, env.guildFolder = .ok x) →
      (∃ x, env.catFolder = .ok x) →
      env.pdfExists = .ok false → env.prepTemp = .ok () →
      (∃ ms, env.fetch = .ok ms ∧ ms ≠ []) →
      env.writeHtml = .ok () → (∃ b, env.pdfGen = .ok b) →
      env.upload 1 = some e1 → isTransient e1 = true →
      env.upload 2 = some e2 → isTransient e2 = true →
      env.upload 3 = none →
      (worker ch guild tempBase env fs).1.status = "Success" ∧
      (worker ch guild tempBase env fs).2.1.filter isUploadAttemptEv =
        [.uploadAttempt 1, .uploadAttempt 2, .uploadAttempt 3] ∧
      (worker ch guild tempBase env fs).2.1.filter isUploadWaitEv =
        [.uploadWait 2, .uploadWait 4]) := by
  refine ⟨?_, ?_, ?_, ?_⟩
  · intro oc
    exact uploadGo_attempts_le oc [1, 2, 3]
  · intro oc a rest e h ht
    simp [uploadGo, h, ht]
  · intro oc a rest e h ht hlt
    simp [uploadGo, h, ht, hlt]
  · intro ch guild tempBase env fs e1 e2 hbs hlaunch hroot hguild hcat hex hprep
      hfetch hwrite hpdf hu1 ht1 hu2 ht2 hu3
    obtain ⟨r3, hroot⟩ := hroot
    obtain ⟨r4, hguild⟩ := hguild
    obtain ⟨r5, hcat⟩ := hcat
    obtain ⟨ms, hfetch, hne⟩ := hfetch
    obtain ⟨b, hpdf⟩ := hpdf
    have hup : uploadGo env.upload [1, 2, 3] =
        (true, [.uploadAttempt 1, .uploadWait 2, .uploadAttempt 2, .uploadWait 4,
                .uploadAttempt 3]) := by
      simp [uploadGo, hu1, ht1, hu2, ht2, hu3]
    cases ms with
    | nil => exact absurd rfl hne
    | cons m0 mrest =>
      have hw : worker ch guild tempBase env fs =
          (⟨ch.id, "Success", "Done"⟩,
           [Ev.fetchEv, Ev.renderEv, Ev.convertEv, Ev.uploadAttempt 1,
            Ev.uploadWait 2, Ev.uploadAttempt 2, Ev.uploadWait 4, Ev.uploadAttempt 3],
           ((((fs.removeTree (pathJoin tempBase ch.id)).write
                (pathJoin (pathJoin tempBase ch.id) (ch.id ++ ".html"))
                (.htmlDoc (render env.mdContent env.mdDesc env.today ch.name (m0 :: mrest)))).write
                (pathJoin (pathJoin tempBase ch.id) (sanitize ch.name ++ ".pdf"))
                (.pdfBytes b)).removeTree (pathJoin tempBase ch.id))) := by
        simp only [worker, hbs, hlaunch, hroot, hguild, hcat, hex, hprep, hfetch,
          hwrite, hpdf, hup, List.isEmpty_cons, Bool.false_eq_true, if_false, if_true]
      rw [hw]
      refine ⟨rfl, by simp [isUploadAttemptEv], by simp [isUploadWaitEv]⟩

/-- Witness for `c3_upload_retry_policy`: the transient-twice scenario
in the all-good environment `envTwoFail`. -/
theorem c3_upload_retry_policy_witness :
    (worker chanA "My Guild" "Temp_Export_UI" envTwoFail []).1.status = "Success" :=
  (c3_upload_retry_policy.2.2.2 chanA "My Guild" "Temp_Export_UI" envTwoFail []
    (.connErr "connection reset") (.connErr "connection reset")
    rfl rfl ⟨"rootF", rfl⟩ ⟨"guildF", rfl⟩ ⟨"catF", rfl⟩ rfl rfl
    ⟨[msgA], rfl, by decide⟩ rfl ⟨"PDF", rfl⟩
    rfl rfl rfl rfl rfl).1

/-! ## Claim C4 -/

/-- C4: whenever the worker reaches the upload step and every upload
attempt fails, the PDF artifact produced earlier is copied to the local
fallback path `Local_Backup_PDFs/<sanitized guild>/<sanitized
category>/<sanitized channel>.pdf`, the worker returns an `Error`
result whose message contains that path, and the artifact's bytes are
present at that path in the final filesystem — no work is lost. -/
theorem c4_upload_exhaustion_saves_locally (ch : Channel) (guild tempBase : String)
    (env : WorkerEnv) (fs : FS) (b : String)
    (hbs : env.buildService = .ok ()) (hlaunch : env.launch = .ok ())
    (hroot : ∃ x, env.rootFolder = .ok x) (hguild : ∃ x, env.guildFolder = .ok x)
    (hcat : ∃ x, env.catFolder = .ok x)
    (hex : env.pdfExists = .ok false) (hprep : env.prepTemp = .ok ())
    (hfetch : ∃ ms, env.fetch = .ok ms ∧ ms ≠ [])
    (hwrite : env.writeHtml = .ok ()) (hpdf : env.pdfGen = .ok b)
    (hfail : (uploadGo env.upload [1, 2, 3]).1 = false)
    (hcopy : env.fallbackCopy = .ok ()) :
    (worker ch guild tempBase env fs).1.status = "Error" ∧
    (worker ch guild tempBase env fs).1.msg =
      "Upload Failed, saved locally: " ++
        pathJoin (pathJoin (pathJoin "Local_Backup_PDFs" (sanitize guild))
          (sanitize ch.category)) (sanitize ch.name ++ ".pdf") ∧
    pyIn (pathJoin (pathJoin (pathJoin "Local_Backup_PDFs" (sanitize guild))
          (sanitize ch.category)) (sanitize ch.name ++ ".pdf"))
        (worker ch guild tempBase env fs).1.msg = true ∧
    FS.read (worker ch guild tempBase env fs).2.2
        (pathJoin (pathJoin (pathJoin "Local_Backup_PDFs" (sanitize guild))
          (sanitize ch.category)) (sanitize ch.name ++ ".pdf")) =
      some (.pdfBytes b) := by
  obtain ⟨r3, hroot⟩ := hroot
  obtain ⟨r4, hguild⟩ := hguild
  obtain ⟨r5, hcat⟩ := hcat
  obtain ⟨ms, hfetch, hne⟩ := hfetch
  cases ms with
  | nil => exact absurd rfl hne
  | cons m0 mrest =>
    have hreadpdf :
        FS.read (((fs.removeTree (pathJoin tempBase ch.id)).write
            (pathJoin (pathJoin tempBase ch.id) (ch.id ++ ".html"))
            (.htmlDoc (render env.mdContent env.mdDesc env.today ch.name (m0 :: mrest)))).write
            (pathJoin (pathJoin tempBase ch.id) (sanitize ch.name ++ ".pdf"))
            (.pdfBytes b))
          (pathJoin (pathJoin tempBase ch.id) (sanitize ch.name ++ ".pdf")) =
        some (.pdfBytes b) := FS.read_write_self _ _ _
    have hw : worker ch guild tempBase env fs =
        (⟨ch.id, "Error",
          "Upload Failed, saved locally: " ++
            pathJoin (pathJoin (pathJoin "Local_Backup_PDFs" (sanitize guild))
              (sanitize ch.category)) (sanitize ch.name ++ ".pdf")⟩,
         Ev.fetchEv :: Ev.renderEv :: Ev.convertEv :: (uploadGo env.upload [1, 2, 3]).2,
         ((((fs.removeTree (pathJoin tempBase ch.id)).write
              (pathJoin (pathJoin tempBase ch.id) (ch.id ++ ".html"))
              (.htmlDoc (render env.mdContent env.mdDesc env.today ch.name (m0 :: mrest)))).write
              (pathJoin (pathJoin tempBase ch.id) (sanitize ch.name ++ ".pdf"))
              (.pdfBytes b)).write
              (pathJoin (pathJoin (pathJoin "Local_Backup_PDFs" (sanitize guild))
                (sanitize ch.category)) (sanitize ch.name ++ ".pdf"))
              (.pdfBytes b))) := by
      simp only [worker, hbs, hlaunch, hroot, hguild, hcat, hex, hprep, hfetch,
        hwrite, hpdf, hcopy, hfail, hreadpdf, List.isEmpty_cons, Bool.false_eq_true,
        if_false, if_true]
    rw [hw]
    exact ⟨rfl, rfl, pyIn_append_self _ _, FS.read_write_self _ _ _⟩

/-- Witness for `c4_upload_exhaustion_saves_locally` in the
always-failing environment `envAllFail`. -/
theorem c4_upload_exhaustion_saves_locally_witness :
    (worker chanA "My Guild" "Temp_Export_UI" envAllFail []).1.status = "Error" :=
  (c4_upload_exhaustion_saves_locally chanA "My Guild" "Temp_Export_UI" envAllFail []
    "PDF" rfl rfl ⟨"rootF", rfl⟩ ⟨"guildF", rfl⟩ ⟨"catF", rfl⟩ rfl rfl
    ⟨[msgA], rfl, by decide⟩ rfl rfl (by decide) rfl).1
